import Mathlib

/-!
A shallow embedding of `redis_natives/set.py` (class `Set`), the set-algebra
engine of the repository, together with proofs about its operations.

The remote store is modelled as a total map from keys to finite sets of wire
strings (an absent key holds the empty set, matching the store's convention
that reading a missing key yields an empty collection and that deleting a
missing key is a no-op).  Each method of the Python class becomes a Lean
function over this store; pipelined batches become sequential store updates,
which is faithful because commands in one batch execute in enqueue order.

The randomness of `srandmember`/`spop` is modelled by passing the drawn reply
as an explicit `choice : Option String` parameter, constrained by
`ValidChoice` (the draw is `none` exactly on an empty set, otherwise a
member).
-/

namespace RedisNatives

/-- The remote store: each key holds a finite set of wire strings. -/
abbrev Store := String → Finset String

/-- Write the whole value of one key (used for `sinterstore`/`sunionstore`
results and, with `∅`, for `delete`). -/
def Store.upd (st : Store) (k : String) (v : Finset String) : Store :=
  fun k2 => if k2 = k then v else st k2

theorem Store.upd_self (st : Store) (k : String) (v : Finset String) :
    Store.upd st k v k = v := by
  simp [Store.upd]

theorem Store.upd_other (st : Store) (k : String) (v : Finset String)
    (k2 : String) (h : k2 ≠ k) : Store.upd st k v k2 = st k2 := by
  simp [Store.upd, h]

/-- `SUNION` over a list of keys (the client returns the union of the keys'
members; the code only calls it with a non-empty key list). -/
def sunion (st : Store) (keys : List String) : Finset String :=
  keys.foldl (fun a k => a ∪ st k) ∅

/-- `SINTER` over a non-empty list of keys.  (The empty-key-list protocol
error of the real store is modelled separately in `RSet.isdisjoint`, the one
call site that can reach it.) -/
def sinterL (st : Store) : List String → Finset String
  | [] => ∅
  | k :: ks => ks.foldl (fun a k2 => a ∩ st k2) (st k)

/-- Modelled from the spec (§4.1 Type Conversion Gateway): `datatypes.py`,
which holds `type_prepare`/`type_convert`, is not under `src/`.  The spec
requires `convert(prepare(x)) == x` for every domain value `x`. -/
structure Gateway (α : Type) where
  prepare : α → String
  convert : String → α
  roundtrip : ∀ a, convert (prepare a) = a

/-- A bound remote set: the façade object holds only its key (the client
handle and element type live in the surrounding parameters). -/
structure RSet where
  key : String

/-- Errors the embedded methods can surface.  `redisKeyError` is the
KeyError-kind error of `errors.RedisKeyError`; `attributeError` and
`unhashableTypeError` are the host-language errors the buggy paths raise;
`redisWrongArity` is the store's "wrong number of arguments" protocol error;
`typeConversionError` is the §4.1 conversion failure. -/
inductive PyErr where
  | attributeError
  | typeConversionError
  | unhashableTypeError
  | redisWrongArity
  | redisKeyError
deriving DecidableEq

/-- A value as the host language sees it: either a raw wire string straight
from the client, or a decoded domain value.  (With a non-identity element
type, e.g. `int`, the two are distinct values, as in the host language.) -/
inductive PyVal (α : Type) where
  | wire (w : String)
  | val (a : α)
deriving DecidableEq

/-- An operand of a set-algebra call: another bound remote set, or a local
in-memory set.  (`_split_by_type` also accepts local lists — classified the
same way — and raises `RedisTypeError` on anything else; no claim needs
either, so operands are modelled by these two variants.) -/
inductive Operand (α : Type) where
  | remote (k : String)
  | localSet (ns : Finset α)

variable {α : Type} [DecidableEq α]

/-- `Set._split_by_type`: partition the operands into remote keys and local
sets, each list keeping the input order. -/
def splitByType : List (Operand α) → List String × List (Finset α)
  | [] => ([], [])
  | Operand.remote k :: rest =>
      let p := splitByType rest
      (k :: p.1, p.2)
  | Operand.localSet ns :: rest =>
      let p := splitByType rest
      (p.1, ns :: p.2)

/-- The `data` property: `smembers` of the key, each member decoded by
`type_convert`. -/
def RSet.data (gw : Gateway α) (st : Store) (self : RSet) : Finset α :=
  (st self.key).image gw.convert

/-- `Set.difference`.  When remote operands exist the source binds `rset` to
the client's raw `sunion` reply — a plain native set — and immediately reads
`rset.data`; a native set has no such attribute, so that path raises
`AttributeError` before any subtraction happens.  With no remote operands,
`rset` is the façade itself and the local sets are subtracted in turn. -/
def RSet.difference (gw : Gateway α) (st : Store) (self : RSet)
    (others : List (Operand α)) : Except PyErr (Finset α) :=
  let p := splitByType others
  if p.1.isEmpty then
    Except.ok (p.2.foldl (fun d ns => d \ ns) (RSet.data gw st self))
  else
    Except.error PyErr.attributeError

/-- `Set.intersection`.  The source computes `rset_keys` but never uses it:
remote operands are silently ignored, and only the local sets are
intersected with `self.data`. -/
def RSet.intersection (gw : Gateway α) (st : Store) (self : RSet)
    (others : List (Operand α)) : Finset α :=
  let p := splitByType others
  p.2.foldl (fun d ns => d ∩ ns) (RSet.data gw st self)

/-- `Set.union`.  With remote operands present, one `sunion` spans the remote
keys plus `self.key` and its raw (undecoded) reply is the base set; otherwise
the decoded `self.data` is.  Local elements are then added one by one (the
element-wise `for` loop is the union with the image below). -/
def RSet.union (gw : Gateway α) (st : Store) (self : RSet)
    (others : List (Operand α)) : Finset (PyVal α) × Store :=
  let p := splitByType others
  let base : Finset (PyVal α) :=
    if p.1.isEmpty then (RSet.data gw st self).image PyVal.val
    else (sunion st (p.1 ++ [self.key])).image PyVal.wire
  (p.2.foldl (fun d ns => d ∪ ns.image PyVal.val) base, st)

/-- The element set an operand denotes (remote members decoded). -/
def operandElems (gw : Gateway α) (st : Store) : Operand α → Finset α
  | Operand.remote k => (st k).image gw.convert
  | Operand.localSet ns => ns

/-- Follows the spec's words for `union(O)`: the decoded result claimed by the
spec, `S.data ∪ ⋃ᵢ Oᵢ`, to be compared with `RSet.union`. -/
def specUnion (gw : Gateway α) (st : Store) (self : RSet)
    (others : List (Operand α)) : Finset α :=
  others.foldl (fun d o => d ∪ operandElems gw st o) (RSet.data gw st self)

/-- The throwaway staging keys of `intersection_update`:
`'__temp__' + str(index)`. -/
def tempKey (i : Nat) : String := "__temp__" ++ toString i

/-- Stage each local operand's elements into its indexed throwaway key
(the pipelined `sadd` loop adds to whatever the key already holds). -/
def stageAll (gw : Gateway α) : Store → List (Finset α) → Nat → Store
  | st, [], _ => st
  | st, ns :: rest, i =>
      stageAll gw (Store.upd st (tempKey i) (st (tempKey i) ∪ ns.image gw.prepare)) rest (i + 1)

/-- The throwaway keys a staging of `n` local operands creates. -/
def tempKeysFor (n : Nat) : List String := (List.range n).map tempKey

/-- `Set.intersection_update`: stage local operands into `__temp__<i>` keys,
`sinterstore` the remote keys, the staged keys and `self.key` into
`self.key`, then delete the literal key `'__temp__'` (note: not the indexed
staging keys) — all in one batch. -/
def RSet.intersection_update (gw : Gateway α) (st : Store) (self : RSet)
    (others : List (Operand α)) : Store :=
  let p := splitByType others
  let st1 := if p.2.isEmpty then st else stageAll gw st p.2 0
  let rkeys := p.1 ++ tempKeysFor p.2.length
  let st2 :=
    if rkeys.isEmpty then st1
    else Store.upd st1 self.key (sinterL st1 (rkeys ++ [self.key]))
  Store.upd st2 "__temp__" ∅

/-- `Set.update`: stage all local operands into the single key `'__temp__'`,
`sunionstore` the remote keys, the staging key and `self.key` into
`self.key`, then delete `'__temp__'`. -/
def RSet.update (gw : Gateway α) (st : Store) (self : RSet)
    (others : List (Operand α)) : Store :=
  let p := splitByType others
  let st1 :=
    if p.2.isEmpty then st
    else Store.upd st "__temp__"
      (st "__temp__" ∪ p.2.foldl (fun a ns => a ∪ ns.image gw.prepare) ∅)
  let rkeys := if p.2.isEmpty then p.1 else p.1 ++ ["__temp__"]
  let st2 :=
    if rkeys.isEmpty then st1
    else Store.upd st1 self.key (sunion st1 (rkeys ++ [self.key]))
  Store.upd st2 "__temp__" ∅

/-- `Set.symmetric_difference`.  With remote operands, one batch stores their
intersection under `baseKey ++ "union"` and their union under
`baseKey ++ "inter"` (the source swaps the two names), reads the `sdiff` of
the two temporaries — a reply the source then never uses — and deletes both
temporaries.  The returned set is `self.data` folded with the local operands
by pairwise symmetric difference; `baseKey` stands for the source's
`str(int(time()))`. -/
def RSet.symmetric_difference (gw : Gateway α) (st : Store) (self : RSet)
    (baseKey : String) (others : List (Operand α)) : Finset α × Store :=
  let p := splitByType others
  let st2 :=
    if p.1.isEmpty then st
    else
      let kU := baseKey ++ "union"
      let kI := baseKey ++ "inter"
      let stA := Store.upd st kU (sinterL st p.1)
      let stB := Store.upd stA kI (sunion stA p.1)
      Store.upd (Store.upd stB kU ∅) kI ∅
  (p.2.foldl (fun d ns => (d \ ns) ∪ (ns \ d)) (RSet.data gw st2 self), st2)

/-- `Set.pop`: `srandmember` (peek) or `spop` (remove) draws a reply —
modelled by `choice` — and the reply is passed to `type_convert`.  A `nil`
reply (empty set) therefore reaches the converter; with the §4.1-modelled
gateway that is a conversion failure, not a KeyError-kind error. -/
def RSet.pop (gw : Gateway α) (st : Store) (self : RSet)
    (choice : Option String) (noRemove : Bool) : Except PyErr α × Store :=
  let st2 :=
    if noRemove then st
    else
      match choice with
      | some w => Store.upd st self.key ((st self.key).erase w)
      | none => st
  match choice with
  | some w => (Except.ok (gw.convert w), st2)
  | none => (Except.error PyErr.typeConversionError, st2)

/-- `Set.remove`: `srem` the prepared element; when the removal count is
zero (the element was absent) raise `RedisKeyError`. -/
def RSet.remove (gw : Gateway α) (st : Store) (self : RSet) (el : α) :
    Except PyErr Unit × Store :=
  let w := gw.prepare el
  if w ∈ st self.key then
    (Except.ok (), Store.upd st self.key ((st self.key).erase w))
  else
    (Except.error PyErr.redisKeyError, st)

/-- `Set.isdisjoint`: `sinter` over the remote keys only (`self.key` is never
included).  With zero remote keys the store rejects `SINTER` with a
wrong-number-of-arguments error; with local operands present, the native
`isdisjoint` iterates the *list of operand sets* and must hash each operand
set itself — sets and lists are unhashable, a `TypeError`.  Only the
all-remote path completes, vacuously disjoint from the empty local list. -/
def RSet.isdisjoint (st : Store) (self : RSet)
    (others : List (Operand α)) : Except PyErr Bool :=
  let p := splitByType others
  match p.1 with
  | [] => Except.error PyErr.redisWrongArity
  | k :: ks =>
      let _rsetElems := ks.foldl (fun a k2 => a ∩ st k2) (st k)
      if p.2.isEmpty then Except.ok true
      else Except.error PyErr.unhashableTypeError

/-- `Set.grab`: return the raw `srandmember` reply — no `type_convert`. -/
def RSet.grab (_st : Store) (_self : RSet) (choice : Option String) :
    Option String :=
  choice

/-- The contract of a random draw from `st k`: `none` exactly on an empty
set, otherwise a member. -/
def ValidChoice (st : Store) (k : String) : Option String → Prop
  | none => st k = ∅
  | some w => w ∈ st k

/-! Concrete instances used by the evaluation theorems.  `gwU` is a unary
integer gateway (the element `n` travels as a string of `n` letters `x`), a
non-identity instance of the §4.1 contract; the stores spell out the spec's
scenario sets. -/

/-- A concrete conversion gateway for `Nat` elements. -/
def gwU : Gateway Nat where
  prepare n := String.mk (List.replicate n 'x')
  convert s := s.length
  roundtrip a := by simp [String.length]

/-- Store holding `S = {1, 2}` at key `"s"`. -/
def stS : Store := fun k => if k = "s" then {"x", "xx"} else ∅

/-- Store holding `S = {1, 2}` at `"s"` and `T = {2, 3}` at `"t"`. -/
def stST : Store := fun k =>
  if k = "s" then {"x", "xx"} else if k = "t" then {"xx", "xxx"} else ∅

/-- Store holding `S = {1, 2}` at `"s"` and `T = {1}` at `"t"`. -/
def stT1 : Store := fun k =>
  if k = "s" then {"x", "xx"} else if k = "t" then {"x"} else ∅

/-- Store holding `S = {1, 2}` at `"s"` and `T = {3}` at `"t"`. -/
def stT3 : Store := fun k =>
  if k = "s" then {"x", "xx"} else if k = "t" then {"xxx"} else ∅

/-- Store holding `S = {1}` at `"s"`. -/
def stOne : Store := fun k => if k = "s" then {"x"} else ∅

/-- The empty store. -/
def stEmpty : Store := fun _ => ∅

/-! Helper lemmas about folded unions and about decoding through a gateway. -/

/-- Union of the images of a list's entries under `f`. -/
def unionMap {β γ : Type} [DecidableEq γ] (f : β → Finset γ) (l : List β) : Finset γ :=
  l.foldl (fun d x => d ∪ f x) ∅

theorem foldl_union_eq {β γ : Type} [DecidableEq γ] (f : β → Finset γ) (l : List β)
    (b : Finset γ) : l.foldl (fun d x => d ∪ f x) b = b ∪ unionMap f l := by
  induction l generalizing b with
  | nil => simp [unionMap]
  | cons x xs ih =>
      have h2 : unionMap f (x :: xs) = f x ∪ unionMap f xs := by
        show List.foldl (fun d y => d ∪ f y) (∅ ∪ f x) xs = f x ∪ unionMap f xs
        rw [ih (∅ ∪ f x), Finset.empty_union]
      rw [List.foldl_cons, ih (b ∪ f x), h2, Finset.union_assoc]

theorem unionMap_cons {β γ : Type} [DecidableEq γ] (f : β → Finset γ) (x : β) (l : List β) :
    unionMap f (x :: l) = f x ∪ unionMap f l := by
  show List.foldl (fun d y => d ∪ f y) (∅ ∪ f x) l = f x ∪ unionMap f l
  rw [foldl_union_eq f l (∅ ∪ f x), Finset.empty_union]

/-- Union of a list of local sets (the order the classifier produced). -/
def unionLocals (sets : List (Finset α)) : Finset α := unionMap (fun s => s) sets

theorem unionLocals_cons (ns : Finset α) (l : List (Finset α)) :
    unionLocals (ns :: l) = ns ∪ unionLocals l :=
  unionMap_cons (fun s => s) ns l

theorem foldl_union_val (sets : List (Finset α)) (b : Finset (PyVal α)) :
    sets.foldl (fun d ns => d ∪ ns.image PyVal.val) b
      = b ∪ (unionLocals sets).image PyVal.val := by
  induction sets generalizing b with
  | nil => simp [unionLocals, unionMap]
  | cons ns rest ih =>
      rw [List.foldl_cons, ih (b ∪ ns.image PyVal.val), unionLocals_cons,
        Finset.image_union, Finset.union_assoc]

theorem specUnion_eq (gw : Gateway α) (st : Store) (self : RSet)
    (others : List (Operand α)) :
    specUnion gw st self others
      = RSet.data gw st self ∪ unionMap (operandElems gw st) others := by
  show others.foldl (fun d o => d ∪ operandElems gw st o) (RSet.data gw st self) = _
  rw [foldl_union_eq (operandElems gw st) others (RSet.data gw st self)]

theorem unionMap_operandElems_of_no_remote (gw : Gateway α) (st : Store) :
    ∀ others : List (Operand α), (splitByType others).1 = [] →
      unionMap (operandElems gw st) others = unionLocals (splitByType others).2
  | [], _ => by simp [unionMap, unionLocals, splitByType]
  | Operand.remote k :: rest, h => by simp [splitByType] at h
  | Operand.localSet ns :: rest, h => by
      have h' : (splitByType rest).1 = [] := by simpa [splitByType] using h
      rw [unionMap_cons]
      show operandElems gw st (Operand.localSet ns)
          ∪ unionMap (operandElems gw st) rest = unionLocals (ns :: (splitByType rest).2)
      rw [unionMap_operandElems_of_no_remote gw st rest h', unionLocals_cons, operandElems]

theorem splitByType_map_remote (keys : List String) :
    splitByType (α := α) (keys.map Operand.remote) = (keys, []) := by
  induction keys with
  | nil => rfl
  | cons k ks ih => simp [splitByType, ih]

theorem image_convert_inter (gw : Gateway α) (W : Finset String) (X : Finset α)
    (hc : ∀ w ∈ W, gw.prepare (gw.convert w) = w) :
    (X.image gw.prepare ∩ W).image gw.convert = W.image gw.convert ∩ X := by
  ext a
  simp only [Finset.mem_image, Finset.mem_inter]
  constructor
  · rintro ⟨w, ⟨⟨x, hxX, hpx⟩, hwW⟩, hca⟩
    subst hca
    refine ⟨⟨w, hwW, rfl⟩, ?_⟩
    rw [← hpx, gw.roundtrip]
    exact hxX
  · rintro ⟨⟨w, hwW, hca⟩, haX⟩
    subst hca
    refine ⟨gw.prepare (gw.convert w), ⟨⟨gw.convert w, haX, rfl⟩, ?_⟩, gw.roundtrip _⟩
    rw [hc w hwW]
    exact hwW

theorem image_convert_erase (gw : Gateway α) (W : Finset String) (el : α)
    (hc : ∀ w ∈ W, gw.prepare (gw.convert w) = w) :
    (W.erase (gw.prepare el)).image gw.convert = (W.image gw.convert).erase el := by
  ext a
  simp only [Finset.mem_image, Finset.mem_erase]
  constructor
  · rintro ⟨w, ⟨hne, hwW⟩, hca⟩
    subst hca
    refine ⟨fun h => hne ?_, ⟨w, hwW, rfl⟩⟩
    rw [← hc w hwW, h]
  · rintro ⟨hne, ⟨w, hwW, hca⟩⟩
    subst hca
    refine ⟨w, ⟨fun h => hne ?_, hwW⟩, rfl⟩
    rw [h, gw.roundtrip]

theorem mem_data_iff (gw : Gateway α) (st : Store) (self : RSet) (el : α)
    (hc : ∀ w ∈ st self.key, gw.prepare (gw.convert w) = w) :
    el ∈ RSet.data gw st self ↔ gw.prepare el ∈ st self.key := by
  simp only [RSet.data, Finset.mem_image]
  constructor
  · rintro ⟨w, hw, rfl⟩
    rw [hc w hw]
    exact hw
  · intro h
    exact ⟨gw.prepare el, h, gw.roundtrip el⟩

/-- Peeking (`noRemove = True`) never writes to the store. -/
theorem pop_peek_preserves (gw : Gateway α) (st : Store) (self : RSet)
    (choice : Option String) : (RSet.pop gw st self choice true).2 = st := by
  cases choice <;> rfl

/-- A destructive pop of a member shrinks the key's cardinality by one. -/
theorem pop_removes_one (gw : Gateway α) (st : Store) (self : RSet) (w : String)
    (h : w ∈ st self.key) :
    ((RSet.pop gw st self (some w) false).2 self.key).card + 1 = (st self.key).card := by
  show (Store.upd st self.key ((st self.key).erase w) self.key).card + 1 = _
  rw [Store.upd_self, Finset.card_erase_of_mem h,
    Nat.sub_add_cancel (Finset.card_pos.mpr ⟨w, h⟩)]

/-! The claims. -/

/-- C1: the claim says `S.difference(T)` for remote `T` returns
`S.data - T`'s elements (here `{1}` for `S = {1, 2}`, `T = {2, 3}`); instead
the remote-operand path reads `.data` off the client's raw union reply and
raises `AttributeError`.  The second conjunct is the result the claim
expected. -/
theorem claim_C1_difference_attribute_error :
    RSet.difference gwU stST ⟨"s"⟩ [Operand.remote "t"] = Except.error PyErr.attributeError ∧
    RSet.data gwU stST ⟨"s"⟩ \ RSet.data gwU stST ⟨"t"⟩ = {1} :=
  ⟨rfl, by decide⟩

/-- C2: the claim says `S.intersection(T)` with remote `T = {1}` and
`S = {1, 2}` returns `S.data ∩ T = {1}`; the code computes the remote keys
but never uses them, returning `S.data = {1, 2}` unchanged. -/
theorem claim_C2_intersection_ignores_remote :
    RSet.intersection gwU stT1 ⟨"s"⟩ [Operand.remote "t"] = ({1, 2} : Finset Nat) ∧
    RSet.data gwU stT1 ⟨"s"⟩ ∩ RSet.data gwU stT1 ⟨"t"⟩ = {1} ∧
    ({1, 2} : Finset Nat) ≠ {1} := by
  refine ⟨by decide, by decide, by decide⟩

/-- C3 counterexample: with a non-identity element type (`int`), `S = {1, 2}`
and remote `T = {3}`, the union the code returns is the raw wire strings of
the server-side union, not the decoded set `{1, 2, 3}` the claim states. -/
theorem claim_C3_union_not_decoded :
    (RSet.union gwU stT3 ⟨"s"⟩ [Operand.remote "t"]).1
      ≠ (specUnion gwU stT3 ⟨"s"⟩ [Operand.remote "t"]).image PyVal.val := by
  decide

/-- C3 amended: `union` never changes the store; with only local operands the
result is the decoded `S.data ∪ ⋃ᵢ Oᵢ`; with remote operands present the
result is the raw wire-string union over `self.key` and the remote keys,
with the local operands' elements added undecoded. -/
theorem claim_C3_union_amended (gw : Gateway α) (st : Store) (self : RSet)
    (others : List (Operand α)) :
    (RSet.union gw st self others).2 = st ∧
    ((splitByType others).1 = [] →
      (RSet.union gw st self others).1 = (specUnion gw st self others).image PyVal.val) ∧
    ((splitByType others).1 ≠ [] →
      (RSet.union gw st self others).1 =
        (sunion st ((splitByType others).1 ++ [self.key])).image PyVal.wire ∪
        (unionLocals (splitByType others).2).image PyVal.val) := by
  refine ⟨rfl, ?_, ?_⟩
  · intro h
    show (splitByType others).2.foldl (fun d ns => d ∪ ns.image PyVal.val)
        (if (splitByType others).1.isEmpty then (RSet.data gw st self).image PyVal.val
         else (sunion st ((splitByType others).1 ++ [self.key])).image PyVal.wire)
      = (specUnion gw st self others).image PyVal.val
    rw [h]
    show (splitByType others).2.foldl (fun d ns => d ∪ ns.image PyVal.val)
        ((RSet.data gw st self).image PyVal.val) = (specUnion gw st self others).image PyVal.val
    rw [foldl_union_val, specUnion_eq, unionMap_operandElems_of_no_remote gw st others h,
      Finset.image_union]
  · intro h
    show (splitByType others).2.foldl (fun d ns => d ∪ ns.image PyVal.val)
        (if (splitByType others).1.isEmpty then (RSet.data gw st self).image PyVal.val
         else (sunion st ((splitByType others).1 ++ [self.key])).image PyVal.wire)
      = (sunion st ((splitByType others).1 ++ [self.key])).image PyVal.wire ∪
        (unionLocals (splitByType others).2).image PyVal.val
    cases hp : (splitByType others).1 with
    | nil => exact absurd hp h
    | cons k ks =>
        show (splitByType others).2.foldl (fun d ns => d ∪ ns.image PyVal.val)
            ((sunion st ((k :: ks) ++ [self.key])).image PyVal.wire)
          = (sunion st ((k :: ks) ++ [self.key])).image PyVal.wire ∪
            (unionLocals (splitByType others).2).image PyVal.val
        rw [foldl_union_val]

/-- C3 witness: the spec's scenario `S = {1, 2}`, `S.union({3, 4})` on the
all-local path, and the remote path at `S = {1, 2}`, `T = {3}`. -/
theorem claim_C3_union_amended_witness :
    ((RSet.union gwU stS ⟨"s"⟩ [Operand.localSet ({3, 4} : Finset Nat)]).1
       = (specUnion gwU stS ⟨"s"⟩ [Operand.localSet ({3, 4} : Finset Nat)]).image PyVal.val) ∧
    ((RSet.union gwU stT3 ⟨"s"⟩ [Operand.remote "t"]).1
       = (sunion stT3 (["t"] ++ ["s"])).image PyVal.wire
         ∪ (unionLocals ([] : List (Finset Nat))).image PyVal.val) :=
  ⟨(claim_C3_union_amended gwU stS ⟨"s"⟩ [Operand.localSet {3, 4}]).2.1 rfl,
   (claim_C3_union_amended gwU stT3 ⟨"s"⟩ [Operand.remote "t"]).2.2 (by decide)⟩

/-- C4: the claim says `S.isdisjoint({1, 2})` is `False` and
`S.isdisjoint({9, 10})` is `True` for `S = {1, 2}`; with no remote operand
the code issues `SINTER` with zero keys, a store protocol error, so both
calls fail identically and no boolean is ever produced (`S`'s own key is
never consulted). -/
theorem claim_C4_isdisjoint_errors :
    RSet.isdisjoint stS ⟨"s"⟩ [Operand.localSet ({1, 2} : Finset Nat)]
      = Except.error PyErr.redisWrongArity ∧
    RSet.isdisjoint stS ⟨"s"⟩ [Operand.localSet ({9, 10} : Finset Nat)]
      = Except.error PyErr.redisWrongArity :=
  ⟨rfl, rfl⟩

/-- C5: `intersection_update` stages the local operand into `__temp__0` but
its batch deletes only the literal key `__temp__`, so `__temp__0` survives
the batch still holding the staged element (first conjuncts); `update`'s
single staging key `__temp__` is deleted as claimed (last conjunct). -/
theorem claim_C5_intersection_update_temp_key_survives :
    (RSet.intersection_update gwU stOne ⟨"s"⟩ [Operand.localSet {1}]) "__temp__0" = {"x"} ∧
    ({"x"} : Finset String) ≠ ∅ ∧
    (RSet.update gwU stOne ⟨"s"⟩ [Operand.localSet {1}]) "__temp__" = ∅ := by
  refine ⟨by decide, by decide, by decide⟩

/-- C6: on an empty set, `pop(peekOnly=False)` gets a `nil` reply from `spop`
and hands it to `type_convert`; under the §4.1-modelled converter that is a
conversion failure, not the KeyError-kind error the claim (and `pop`'s own
docstring) promises. -/
theorem claim_C6_pop_empty_not_keyerror :
    stEmpty "s" = ∅ ∧
    (RSet.pop gwU stEmpty ⟨"s"⟩ none false).1 = Except.error PyErr.typeConversionError ∧
    (Except.error PyErr.typeConversionError ≠ (Except.error PyErr.redisKeyError : Except PyErr Nat)) :=
  ⟨rfl, rfl, by simp⟩

/-- C7: with one local operand `X`, no remote operands, the staging key
initially absent and `S`'s key not a staging key, `intersection_update`
leaves `S.data` equal to `S.data_before ∩ X` (stored wires canonical). -/
theorem claim_C7_intersection_update_local (gw : Gateway α) (st : Store) (self : RSet)
    (X : Finset α)
    (h0 : st "__temp__0" = ∅) (h1 : self.key ≠ "__temp__0") (h2 : self.key ≠ "__temp__")
    (hc : ∀ w ∈ st self.key, gw.prepare (gw.convert w) = w) :
    RSet.data gw (RSet.intersection_update gw st self [Operand.localSet X]) self
      = RSet.data gw st self ∩ X := by
  have hA : stageAll gw st [X] 0 (tempKey 0) = X.image gw.prepare := by
    show Store.upd st (tempKey 0) (st (tempKey 0) ∪ X.image gw.prepare) (tempKey 0) = _
    rw [Store.upd_self, show st (tempKey 0) = ∅ from h0, Finset.empty_union]
  have hB : stageAll gw st [X] 0 self.key = st self.key := by
    show Store.upd st (tempKey 0) (st (tempKey 0) ∪ X.image gw.prepare) self.key = _
    exact Store.upd_other _ _ _ _ h1
  have hkey : RSet.intersection_update gw st self [Operand.localSet X] self.key
      = X.image gw.prepare ∩ st self.key := by
    show (if self.key = "__temp__" then (∅ : Finset String)
          else Store.upd (stageAll gw st [X] 0) self.key
            (sinterL (stageAll gw st [X] 0) (tempKeysFor 1 ++ [self.key])) self.key)
        = X.image gw.prepare ∩ st self.key
    rw [if_neg h2, Store.upd_self]
    show stageAll gw st [X] 0 (tempKey 0) ∩ stageAll gw st [X] 0 self.key = _
    rw [hA, hB]
  simp only [RSet.data]
  rw [hkey]
  exact image_convert_inter gw (st self.key) X hc

/-- C7 witness: `S = {1, 2}`, `X = {1}` on a store with no staging keys. -/
theorem claim_C7_witness :
    RSet.data gwU (RSet.intersection_update gwU stS ⟨"s"⟩ [Operand.localSet {1}]) ⟨"s"⟩
      = RSet.data gwU stS ⟨"s"⟩ ∩ {1} :=
  claim_C7_intersection_update_local gwU stS ⟨"s"⟩ {1}
    (by decide) (by decide) (by decide) (by decide)

/-- C8: `remove(el)` raises the KeyError-kind `RedisKeyError` exactly when
`el` is not a member; on a member it succeeds and the set afterwards is the
old set with `el` erased (stored wires canonical). -/
theorem claim_C8_remove_keyerror_iff (gw : Gateway α) (st : Store) (self : RSet) (el : α)
    (hc : ∀ w ∈ st self.key, gw.prepare (gw.convert w) = w) :
    ((RSet.remove gw st self el).1 = Except.error PyErr.redisKeyError ↔
       el ∉ RSet.data gw st self) ∧
    (el ∈ RSet.data gw st self →
       (RSet.remove gw st self el).1 = Except.ok () ∧
       RSet.data gw (RSet.remove gw st self el).2 self
         = (RSet.data gw st self).erase el) := by
  have hmem := mem_data_iff gw st self el hc
  constructor
  · by_cases h : gw.prepare el ∈ st self.key
    · simp [RSet.remove, h, hmem]
    · simp [RSet.remove, h, hmem]
  · intro hel
    have h : gw.prepare el ∈ st self.key := hmem.1 hel
    refine ⟨by simp [RSet.remove, h], ?_⟩
    have h2 : (RSet.remove gw st self el).2 self.key
        = (st self.key).erase (gw.prepare el) := by
      simp [RSet.remove, h, Store.upd_self]
    simp only [RSet.data]
    rw [h2]
    exact image_convert_erase gw (st self.key) el hc

/-- C8 witness: removing the member `1` from `S = {1, 2}`. -/
theorem claim_C8_witness :
    (RSet.remove gwU stS ⟨"s"⟩ 1).1 = Except.ok () ∧
    RSet.data gwU (RSet.remove gwU stS ⟨"s"⟩ 1).2 ⟨"s"⟩
      = (RSet.data gwU stS ⟨"s"⟩).erase 1 :=
  (claim_C8_remove_keyerror_iff gwU stS ⟨"s"⟩ 1 (by decide)).2 (by decide)

/-- C9: a call to `isdisjoint` whose (non-empty) operand list is all remote
references returns `True` whatever the store holds: the local-operand list is
empty and the raw server-side intersection is vacuously disjoint from it. -/
theorem claim_C9_isdisjoint_all_remote_true {β : Type} [DecidableEq β]
    (st : Store) (self : RSet) (keys : List String) (h : keys ≠ []) :
    RSet.isdisjoint (α := β) st self (keys.map Operand.remote) = Except.ok true := by
  cases keys with
  | nil => exact absurd rfl h
  | cons k ks =>
      have hsplit := splitByType_map_remote (α := β) (k :: ks)
      simp only [RSet.isdisjoint, hsplit]
      rfl

/-- C9 witness: one remote operand over an arbitrary store. -/
theorem claim_C9_witness :
    RSet.isdisjoint (α := Nat) stST ⟨"s"⟩ [Operand.remote "t"] = Except.ok true :=
  claim_C9_isdisjoint_all_remote_true stST ⟨"s"⟩ ["t"] (by decide)

/-- C10: for a valid random draw, `grab` yields `none` (no error) on an empty
set, and on a non-empty set yields the drawn member as a raw wire string —
`pop` applied to the same draw returns that member decoded. -/
theorem claim_C10_grab_raw (gw : Gateway α) (st : Store) (self : RSet)
    (choice : Option String) (h : ValidChoice st self.key choice) :
    (st self.key = ∅ → RSet.grab st self choice = none) ∧
    (∀ w : String, RSet.grab st self choice = some w →
       w ∈ st self.key ∧ (RSet.pop gw st self choice true).1 = Except.ok (gw.convert w)) := by
  cases choice with
  | none => exact ⟨fun _ => rfl, fun w hw => by cases hw⟩
  | some w0 =>
      refine ⟨fun hemp => ?_, fun w hw => ?_⟩
      · exact absurd (show w0 ∈ st self.key from h) (by simp [hemp])
      · cases hw
        exact ⟨h, rfl⟩

/-- C10 witness: drawing the member `"x"` from `S = {1, 2}`. -/
theorem claim_C10_witness :
    ("x" ∈ stS "s") ∧
    (RSet.pop gwU stS ⟨"s"⟩ (some "x") true).1 = Except.ok (gwU.convert "x") :=
  (claim_C10_grab_raw gwU stS ⟨"s"⟩ (some "x") (by simp [ValidChoice, stS])).2 "x" rfl

end RedisNatives
